import Mathlib

/-!
# NetDump client — verification of the protocol engine

Shallow embedding of `src/main.rs` of the NetDump client. The wire is
modelled as a list of byte values (`List Nat`, each element < 256 on real
inputs); the client's reads consume a prefix of that list. Effects that the
claims talk about (frames sent, sink opened, blocks written to the sink,
user-visible messages, panics) are collected in explicit result records.
-/

namespace NetDump

/-- `PROTOCOL_VERSION` from the source (`static PROTOCOL_VERSION: u32 = 1`). -/
def PROTOCOL_VERSION : Nat := 1

/-- The bytes of the magic marker `"NETDUMP"`. -/
def magicBytes : List Nat := [78, 69, 84, 68, 85, 77, 80]

/-- `IO_SIZE` from the source (`static IO_SIZE: usize = 32768`). -/
def IO_SIZE : Nat := 32768

/-! ## Byte-stream primitives (the `ez_io` read helpers) -/

/-- Read exactly `n` bytes from the stream; `none` models a failed
`read_exact` (stream too short), which the client always `unwrap`s. -/
def readBytes (n : Nat) (s : List Nat) : Option (List Nat × List Nat) :=
  if n ≤ s.length then some (s.take n, s.drop n) else none

/-- Big-endian value of a byte list. -/
def beVal (bs : List Nat) : Nat := bs.foldl (fun a b => a * 256 + b) 0

/-- Big-endian 4-byte encoding of a `u32` value. -/
def beBytes4 (v : Nat) : List Nat :=
  [v / 16777216 % 256, v / 65536 % 256, v / 256 % 256, v % 256]

/-- Little-endian 4-byte encoding of a `u32` value. -/
def leBytes4 (v : Nat) : List Nat :=
  [v % 256, v / 256 % 256, v / 65536 % 256, v / 16777216 % 256]

/-- Big-endian 8-byte encoding of a `u64` value. -/
def beBytes8 (v : Nat) : List Nat :=
  [v / 72057594037927936 % 256, v / 281474976710656 % 256,
   v / 1099511627776 % 256, v / 4294967296 % 256,
   v / 16777216 % 256, v / 65536 % 256, v / 256 % 256, v % 256]

/-- `ez_io`'s `read_be_to_u32`. -/
def read_be_to_u32 (s : List Nat) : Option (Nat × List Nat) :=
  match readBytes 4 s with
  | none => none
  | some (bs, r) => some (beVal bs, r)

/-- `ez_io`'s `read_be_to_u64`. -/
def read_be_to_u64 (s : List Nat) : Option (Nat × List Nat) :=
  match readBytes 8 s with
  | none => none
  | some (bs, r) => some (beVal bs, r)

/-- `ez_io`'s `read_to_u8`. -/
def read_to_u8 (s : List Nat) : Option (Nat × List Nat) :=
  match s with
  | [] => none
  | b :: r => some (b, r)

/-- `ez_io`'s `check_magic_number`: read `expected.length` bytes and compare
byte-exactly; `none` models the error (which the client `unwrap`s). -/
def check_magic_number (expected s : List Nat) : Option (List Nat) :=
  match readBytes expected.length s with
  | none => none
  | some (bs, r) => if bs = expected then some r else none

/-! ## Host endianness and the `transmute` version bytes (claim C9) -/

/-- The host's byte order, a parameter of the `unsafe transmute` in the
source's `check_magic_number_protocol_version!` macro. -/
inductive Endianness
  | little
  | big
deriving DecidableEq, Repr

/-- The in-memory byte sequence of a `u32` value on a host of the given
endianness (what `transmute::<u32, [u8; 4]>` reads back). -/
def nativeBytes4 : Endianness → Nat → List Nat
  | .little, v => leBytes4 v
  | .big, v => beBytes4 v

/-- Byte-swap of a `u32` value. -/
def byteSwap4 (v : Nat) : Nat :=
  v % 256 * 16777216 + v / 256 % 256 * 65536 + v / 65536 % 256 * 256
    + v / 16777216 % 256

/-- Rust's `u32::to_be()`: identity on a big-endian host, byte swap on a
little-endian host. -/
def u32_to_be : Endianness → Nat → Nat
  | .big, v => v
  | .little, v => byteSwap4 v

/-- The 4-byte array the source compares the stream's version field against:
`transmute::<u32, [u8; 4]>(PROTOCOL_VERSION.to_be())` on a host of the given
endianness. -/
def transmutedVersion (e : Endianness) : List Nat :=
  nativeBytes4 e (u32_to_be e PROTOCOL_VERSION)

/-! ## Protocol enumerations -/

/-- The `Commands` enum (`#[repr(u32)]`). -/
inductive Commands
  | Disconnect
  | ExitProgram
  | Shutdown
  | EjectDisc
  | GetDiscInfo
  | DumpBCA
  | DumpGame
deriving DecidableEq, Repr

/-- The `u32` discriminant of each command, as written in the source. -/
def Commands.code : Commands → Nat
  | .Disconnect => 4294967295
  | .ExitProgram => 4294967294
  | .Shutdown => 4294967293
  | .EjectDisc => 1
  | .GetDiscInfo => 2
  | .DumpBCA => 3
  | .DumpGame => 4

/-- The `CommandAnswers` enum (`#[repr(u32)]`, `FromPrimitive`). -/
inductive CommandAnswers
  | ProtocolError
  | NoDisc
  | CouldNotEject
  | UnknownDiscType
  | OK
  | DiscInfo
  | BCA
  | Game
deriving DecidableEq, Repr

/-- The derived `CommandAnswers::from_u32`: each declared discriminant maps
to its variant, every other value to `none`. -/
def CommandAnswers.from_u32 (c : Nat) : Option CommandAnswers :=
  if c = 4294967295 then some .ProtocolError
  else if c = 4294967294 then some .NoDisc
  else if c = 4294967293 then some .CouldNotEject
  else if c = 4294967292 then some .UnknownDiscType
  else if c = 0 then some .OK
  else if c = 1 then some .DiscInfo
  else if c = 2 then some .BCA
  else if c = 3 then some .Game
  else none

/-- The `DiscTypes` enum (`#[repr(u8)]`, `FromPrimitive`). -/
inductive DiscTypes
  | GC
  | WiiSingleSided
  | WiiDoubleSided
deriving DecidableEq, Repr

/-- The derived `DiscTypes::from_u8`. -/
def DiscTypes.from_u8 (b : Nat) : Option DiscTypes :=
  if b = 0 then some .GC
  else if b = 1 then some .WiiSingleSided
  else if b = 2 then some .WiiDoubleSided
  else none

/-- The 15-byte request frame built by `send_command!`:
magic, then big-endian protocol version, then big-endian command code. -/
def commandFrame (c : Commands) : List Nat :=
  magicBytes ++ beBytes4 PROTOCOL_VERSION ++ beBytes4 c.code

/-- The frame sent by `send_disconnect!`. -/
def disconnectFrame : List Nat := commandFrame .Disconnect

/-! ## Effect and outcome vocabulary -/

/-- The user-visible diagnostic messages printed by the client (each tag
stands for the branch's `println!`/`eprintln!` line carrying that meaning). -/
inductive Msg
  | protocolErr
  | noDisc
  | unknownDiscType
  | couldNotEject
  | weirdResponse
  | weirdDisconnect
deriving DecidableEq, Repr

/-- Which `panic!` ended the run: a failed `unwrap`/`expect`, or the
`unimplemented!()` in the `Full` branch. -/
inductive PanicKind
  | unwrapFailed
  | notImplemented
deriving DecidableEq, Repr

/-- How a run ends: a normal return from `main`, or a panic. -/
inductive Outcome
  | normal
  | fatal (k : PanicKind)
deriving DecidableEq, Repr

/-- The Rust process exit status determined by the outcome: 0 on a normal
return from `main`, 101 on a panic. -/
def exitCode : Outcome → Nat
  | .normal => 0
  | .fatal _ => 101

/-- Effects of handling one response arm: whether the output sink (file or
stdout handle) was opened, the blocks written to it in order, the messages
printed, the outcome, and the unconsumed remainder of the input stream. -/
structure ArmOut where
  sinkOpened : Bool
  sinkWrites : List (List Nat)
  msgs : List Msg
  outcome : Outcome
  rest : List Nat
deriving DecidableEq, Repr

/-- Effects of one whole `main` run: the frames sent to the server, plus the
same effect fields as `ArmOut`. -/
structure RunOut where
  sent : List (List Nat)
  sinkOpened : Bool
  sinkWrites : List (List Nat)
  msgs : List Msg
  outcome : Outcome
  rest : List Nat
deriving DecidableEq, Repr

/-! ## UTF-8 validation and name trimming (the `DiscInfo` payload) -/

/-- UTF-8 validity of a byte list, as checked by Rust's
`String::from_utf8` (rejecting overlong forms, surrogates and values
above U+10FFFF). -/
def utf8Valid : List Nat → Bool
  | [] => true
  | b :: r =>
    if b < 128 then utf8Valid r
    else
      match r with
      | b1 :: r1 =>
        if b < 194 then false
        else if b ≤ 223 then decide (128 ≤ b1 ∧ b1 ≤ 191) && utf8Valid r1
        else
          match r1 with
          | b2 :: r2 =>
            if b ≤ 239 then
              let lo1 := if b = 224 then 160 else 128
              let hi1 := if b = 237 then 159 else 191
              decide (lo1 ≤ b1 ∧ b1 ≤ hi1 ∧ 128 ≤ b2 ∧ b2 ≤ 191) &&
                utf8Valid r2
            else
              match r2 with
              | b3 :: r3 =>
                if b ≤ 244 then
                  let lo1 := if b = 240 then 144 else 128
                  let hi1 := if b = 244 then 143 else 191
                  decide (lo1 ≤ b1 ∧ b1 ≤ hi1 ∧ 128 ≤ b2 ∧ b2 ≤ 191 ∧
                          128 ≤ b3 ∧ b3 ≤ 191) && utf8Valid r3
                else false
              | [] => false
          | [] => false
      | [] => false

/-- Drop trailing NUL bytes (`trim_end_matches(char::from(0))` on the decoded
string; a NUL is a single-byte character, so on valid UTF-8 this is the
byte-level operation). -/
def dropTrailingZeros (bs : List Nat) : List Nat :=
  (bs.reverse.dropWhile (· = 0)).reverse

/-- `String::from_utf8(buf).unwrap().trim_end_matches(char::from(0))`:
`none` models the `unwrap` panic on invalid UTF-8; the resulting text is kept
as its byte sequence. -/
def decodeName (bs : List Nat) : Option (List Nat) :=
  if utf8Valid bs then some (dropTrailingZeros bs) else none

/-! ## The single-length streaming loop of the `Game` branch -/

/-- One unfolding layer of the `while data_received < data_length` loop of
the `Game` branch, phrased over `remaining = data_length - data_received`:
stop at 0; with fewer than `IO_SIZE` bytes remaining read one final block of
exactly the remaining count; otherwise read a full `IO_SIZE` block and
continue. `fuel` only bounds the recursion depth (each iteration decreases
`remaining` by at least 1, so `fuel = remaining` at the entry point can
never run out); `none` models a failed `read_exact` (`unwrap` panic).
Returns the blocks read (one `read_exact` and one `write_all` each) in
order, and the unconsumed stream. -/
def recvLoopAux (fuel : Nat) (remaining : Nat) (s : List Nat) :
    Option (List (List Nat) × List Nat) :=
  match fuel with
  | 0 => if remaining = 0 then some ([], s) else none
  | fuel + 1 =>
    if remaining = 0 then some ([], s)
    else if remaining < IO_SIZE then
      match readBytes remaining s with
      | none => none
      | some (bs, r) => some ([bs], r)
    else
      match readBytes IO_SIZE s with
      | none => none
      | some (bs, r) =>
        match recvLoopAux fuel (remaining - IO_SIZE) r with
        | none => none
        | some (ws, r2) => some (bs :: ws, r2)

/-- The `Game` branch's receive loop for a declared total of `remaining`
bytes (see `recvLoopAux`; the fuel `remaining` is an upper bound on the
number of iterations). -/
def recvLoop (remaining : Nat) (s : List Nat) :
    Option (List (List Nat) × List Nat) :=
  recvLoopAux remaining remaining s

/-! ## Response-header validation and the response arms -/

/-- The `check_magic_number_protocol_version!` macro: check the 7 magic
bytes, then the 4 version bytes (the source compares against the
`transmute` of `PROTOCOL_VERSION.to_be()`; the client is built for a
little-endian host — claim C9 shows the bytes are the big-endian encoding
on either host). `none` models the `unwrap` panic on a mismatch. -/
def check_header (s : List Nat) : Option (List Nat) :=
  match check_magic_number magicBytes s with
  | none => none
  | some r => check_magic_number (transmutedVersion .little) r

/-- Header validation followed by the 4-byte status read shared by every
branch of `main`'s `match`: `none` models a panic (bad magic/version or a
short status read); otherwise the decoded status (possibly unrecognized,
hence `Option CommandAnswers`) and the unconsumed stream. -/
def readHeaderStatus (s : List Nat) :
    Option (Option CommandAnswers × List Nat) :=
  match check_header s with
  | none => none
  | some r =>
    match read_be_to_u32 r with
    | none => none
    | some (c, r2) => some (CommandAnswers.from_u32 c, r2)

/-- Result of the `send_disconnect!` macro, after the disconnect frame
itself has been written: messages printed, outcome, unconsumed stream. -/
structure TeardownOut where
  msgs : List Msg
  outcome : Outcome
  rest : List Nat
deriving DecidableEq, Repr

/-- The `send_disconnect!` macro body after its `send_command!`: validate
magic and version (`unwrap` — panic on mismatch), read the 4-byte status
(`unwrap`), and treat anything other than a decoded `OK` as a warning
(`eprintln!("Weird response from Wii, disconnecting anyways")`). -/
def send_disconnect (s : List Nat) : TeardownOut :=
  match check_header s with
  | none => ⟨[], .fatal .unwrapFailed, []⟩
  | some r =>
    match read_be_to_u32 r with
    | none => ⟨[], .fatal .unwrapFailed, []⟩
    | some (c, r2) =>
      match CommandAnswers.from_u32 c with
      | some .OK => ⟨[], .normal, r2⟩
      | _ => ⟨[.weirdDisconnect], .normal, r2⟩

/-- The `Process::Info` match on the decoded status. On `DiscInfo`: read the
type byte, the 32-byte game name, the 512-byte internal name (each decode
`unwrap`ped in source order), then `DiscTypes::from_u8(..).unwrap()`; with
an output path the JSON file is created (its serialized contents are the
out-of-scope serializer). The remaining arms only print. -/
def infoArm (jsonOut : Bool) (a : Option CommandAnswers) (s : List Nat) :
    ArmOut :=
  match a with
  | some .DiscInfo =>
    match read_to_u8 s with
    | none => ⟨false, [], [], .fatal .unwrapFailed, []⟩
    | some (tb, s1) =>
      match readBytes 32 s1 with
      | none => ⟨false, [], [], .fatal .unwrapFailed, []⟩
      | some (gn, s2) =>
        match decodeName gn with
        | none => ⟨false, [], [], .fatal .unwrapFailed, []⟩
        | some _ =>
          match readBytes 512 s2 with
          | none => ⟨false, [], [], .fatal .unwrapFailed, []⟩
          | some (inb, s3) =>
            match decodeName inb with
            | none => ⟨false, [], [], .fatal .unwrapFailed, []⟩
            | some _ =>
              match DiscTypes.from_u8 tb with
              | none => ⟨false, [], [], .fatal .unwrapFailed, []⟩
              | some _ => ⟨jsonOut, [], [], .normal, s3⟩
  | some .ProtocolError => ⟨false, [], [.protocolErr], .normal, s⟩
  | some .NoDisc => ⟨false, [], [.noDisc], .normal, s⟩
  | some .UnknownDiscType => ⟨false, [], [.unknownDiscType], .normal, s⟩
  | _ => ⟨false, [], [.weirdResponse], .normal, s⟩

/-- The `Process::BCA` match on the decoded status. On `BCA` the sink is
opened first (file creation or stdout), then exactly 64 bytes are read and
written. The remaining arms only print. -/
def bcaArm (a : Option CommandAnswers) (s : List Nat) : ArmOut :=
  match a with
  | some .BCA =>
    match readBytes 64 s with
    | none => ⟨true, [], [], .fatal .unwrapFailed, []⟩
    | some (d, r) => ⟨true, [d], [], .normal, r⟩
  | some .ProtocolError => ⟨false, [], [.protocolErr], .normal, s⟩
  | some .NoDisc => ⟨false, [], [.noDisc], .normal, s⟩
  | some .UnknownDiscType => ⟨false, [], [.unknownDiscType], .normal, s⟩
  | _ => ⟨false, [], [.weirdResponse], .normal, s⟩

/-- The `Process::Game` match on the decoded status. On `Game` the sink is
opened first, the 8-byte big-endian total length is read, then the
`while data_received < data_length` loop runs (`recvLoop`), each block
written to the sink in order. The remaining arms only print. -/
def gameArm (a : Option CommandAnswers) (s : List Nat) : ArmOut :=
  match a with
  | some .Game =>
    match read_be_to_u64 s with
    | none => ⟨true, [], [], .fatal .unwrapFailed, []⟩
    | some (n, r) =>
      match recvLoop n r with
      | none => ⟨true, [], [], .fatal .unwrapFailed, []⟩
      | some (ws, r2) => ⟨true, ws, [], .normal, r2⟩
  | some .ProtocolError => ⟨false, [], [.protocolErr], .normal, s⟩
  | some .NoDisc => ⟨false, [], [.noDisc], .normal, s⟩
  | some .UnknownDiscType => ⟨false, [], [.unknownDiscType], .normal, s⟩
  | _ => ⟨false, [], [.weirdResponse], .normal, s⟩

/-- The `Process::EjectDisc` match on the decoded status: no payload is ever
read; each non-OK arm only prints. -/
def ejectArm (a : Option CommandAnswers) (s : List Nat) : ArmOut :=
  match a with
  | some .OK => ⟨false, [], [], .normal, s⟩
  | some .NoDisc => ⟨false, [], [.noDisc], .normal, s⟩
  | some .CouldNotEject => ⟨false, [], [.couldNotEject], .normal, s⟩
  | some .ProtocolError => ⟨false, [], [.protocolErr], .normal, s⟩
  | _ => ⟨false, [], [.weirdResponse], .normal, s⟩

/-- Wrap an arm's effects into a full-run result for a branch that ends with
`send_disconnect!`: if the arm panicked the disconnect is never reached;
otherwise the disconnect frame is sent and its exchange runs. -/
def withDisconnect (cmdFrame : List Nat) (arm : ArmOut) : RunOut :=
  match arm.outcome with
  | .fatal k =>
    ⟨[cmdFrame], arm.sinkOpened, arm.sinkWrites, arm.msgs, .fatal k, arm.rest⟩
  | .normal =>
    let td := send_disconnect arm.rest
    ⟨[cmdFrame, disconnectFrame], arm.sinkOpened, arm.sinkWrites,
      arm.msgs ++ td.msgs, td.outcome, td.rest⟩

/-- The requested operation (the parsed `Process` value), with the
CLI options that affect protocol-visible behavior. -/
inductive Proc
  | full
  | game
  | bca
  | info (jsonOut : Bool)
  | ejectDisc
  | exitProgram
  | shutdown
deriving DecidableEq, Repr

/-- A branch that sends one frame, validates the header, reads the status
and stops (the `ExitProgram` and `Shutdown` branches): `OK` is silent,
anything else prints `"Weird response from Wii"`; no disconnect follows. -/
def simpleBranch (c : Commands) (s : List Nat) : RunOut :=
  match readHeaderStatus s with
  | none => ⟨[commandFrame c], false, [], [], .fatal .unwrapFailed, []⟩
  | some (a, r) =>
    match a with
    | some .OK => ⟨[commandFrame c], false, [], [], .normal, r⟩
    | _ => ⟨[commandFrame c], false, [], [.weirdResponse], .normal, r⟩

/-- The whole of `main` after the TCP connect, per selected `Process`
branch, on a given server byte stream. -/
def runProc (p : Proc) (s : List Nat) : RunOut :=
  match p with
  | .full => ⟨[], false, [], [], .fatal .notImplemented, s⟩
  | .exitProgram => simpleBranch .ExitProgram s
  | .shutdown => simpleBranch .Shutdown s
  | .info jsonOut =>
    match readHeaderStatus s with
    | none => ⟨[commandFrame .GetDiscInfo], false, [], [], .fatal .unwrapFailed, []⟩
    | some (a, r) => withDisconnect (commandFrame .GetDiscInfo) (infoArm jsonOut a r)
  | .bca =>
    match readHeaderStatus s with
    | none => ⟨[commandFrame .DumpBCA], false, [], [], .fatal .unwrapFailed, []⟩
    | some (a, r) => withDisconnect (commandFrame .DumpBCA) (bcaArm a r)
  | .game =>
    match readHeaderStatus s with
    | none => ⟨[commandFrame .DumpGame], false, [], [], .fatal .unwrapFailed, []⟩
    | some (a, r) => withDisconnect (commandFrame .DumpGame) (gameArm a r)
  | .ejectDisc =>
    match readHeaderStatus s with
    | none => ⟨[commandFrame .EjectDisc], false, [], [], .fatal .unwrapFailed, []⟩
    | some (a, r) => withDisconnect (commandFrame .EjectDisc) (ejectArm a r)

/-! ## Chunked streaming mode (a different protocol revision, not in `src/`) -/

/-- Modelled from the spec: one chunk of the chunked-mode game stream (the
chunked protocol revision's receiver is not part of `src/main.rs`, which
implements single-length mode). Each chunk arrives behind its own full
response frame and carries `{remaining-total length (u64 BE), this-chunk
length (u32 BE), chunk bytes}`; the fields are kept decoded here. -/
structure ChunkFrame where
  magic : List Nat
  version : List Nat
  status : Nat
  remaining : Nat
  chunkLen : Nat
  bytes : List Nat
deriving DecidableEq, Repr

/-- Modelled from the spec: the per-chunk validation — magic, version, and
the domain status code (`Game`) — performed before the chunk's bytes are
consumed. -/
def validChunkHeader (c : ChunkFrame) : Bool :=
  decide (c.magic = magicBytes) &&
  decide (c.version = beBytes4 PROTOCOL_VERSION) &&
  decide (CommandAnswers.from_u32 c.status = some CommandAnswers.Game)

/-- Modelled from the spec: the chunked-mode receive loop. For each chunk:
validate the fresh response frame before consuming its bytes (a mismatch
aborts mid-stream, keeping the bytes already written); append the chunk's
bytes to the sink; terminate exactly when the chunk's remaining-total
length equals its own length, otherwise continue with the next frame.
Returns (blocks written in order, completed-normally flag, unconsumed
frames). An exhausted stream with the transfer incomplete is an abort. -/
def chunkedRecv : List ChunkFrame → List (List Nat) × Bool × List ChunkFrame
  | [] => ([], false, [])
  | c :: fs =>
    if validChunkHeader c then
      if c.remaining = c.chunkLen then ([c.bytes], true, fs)
      else
        let t := chunkedRecv fs
        (c.bytes :: t.1, t.2.1, t.2.2)
    else ([], false, c :: fs)

/-! ## Helper lemmas -/

theorem readBytes_prefix (a b : List Nat) :
    readBytes a.length (a ++ b) = some (a, b) := by
  simp [readBytes, List.take_left, List.drop_left]

theorem readBytes_eq_of_prefix (n : Nat) (a b : List Nat) (h : a.length = n) :
    readBytes n (a ++ b) = some (a, b) := h ▸ readBytes_prefix a b

theorem check_magic_number_prefix (e t : List Nat) :
    check_magic_number e (e ++ t) = some t := by
  simp [check_magic_number, readBytes_prefix]

theorem transmutedVersion_eq (e : Endianness) :
    transmutedVersion e = beBytes4 PROTOCOL_VERSION := by
  cases e <;> decide

theorem check_header_prefix (t : List Nat) :
    check_header (magicBytes ++ beBytes4 PROTOCOL_VERSION ++ t) = some t := by
  have h1 := check_magic_number_prefix magicBytes (beBytes4 PROTOCOL_VERSION ++ t)
  have h2 := check_magic_number_prefix (beBytes4 PROTOCOL_VERSION) t
  rw [List.append_assoc]
  simp [check_header, h1, transmutedVersion_eq, h2]

theorem read_be_to_u32_prefix (a t : List Nat) (h : a.length = 4) :
    read_be_to_u32 (a ++ t) = some (beVal a, t) := by
  simp [read_be_to_u32, readBytes_eq_of_prefix 4 a t h]

theorem read_be_to_u64_prefix (a t : List Nat) (h : a.length = 8) :
    read_be_to_u64 (a ++ t) = some (beVal a, t) := by
  simp [read_be_to_u64, readBytes_eq_of_prefix 8 a t h]

theorem from_u8_none_of_ge3 (b : Nat) (h : 3 ≤ b) :
    DiscTypes.from_u8 b = none := by
  simp only [DiscTypes.from_u8]
  split_ifs with h1 h2 h3
  · omega
  · omega
  · omega
  · rfl

theorem utf8Valid_cons_zero (r : List Nat) :
    utf8Valid (0 :: r) = utf8Valid r := by
  conv_lhs => rw [utf8Valid.eq_def]
  norm_num

theorem utf8Valid_replicate_zero (n : Nat) :
    utf8Valid (List.replicate n 0) = true := by
  induction n with
  | zero => rfl
  | succ n ih => rw [List.replicate_succ, utf8Valid_cons_zero]; exact ih

theorem recvLoopAux_spec (fuel : Nat) : ∀ (N : Nat) (s : List Nat),
    N ≤ fuel → N ≤ s.length →
    ∃ ws : List (List Nat),
      recvLoopAux fuel N s = some (ws, s.drop N) ∧
      ws.length = (N + (IO_SIZE - 1)) / IO_SIZE ∧
      ws.flatten = s.take N := by
  induction fuel with
  | zero =>
    intro N s hf hN
    have h0 : N = 0 := by omega
    subst h0
    exact ⟨[], by simp [recvLoopAux], by decide, by simp⟩
  | succ fuel ih =>
    intro N s hf hN
    by_cases h0 : N = 0
    · subst h0
      exact ⟨[], by simp [recvLoopAux], by decide, by simp⟩
    · by_cases hB : N < IO_SIZE
      · have hrb2 : readBytes N s = some (s.take N, s.drop N) := by
          simp [readBytes, hN]
        refine ⟨[s.take N], ?_, ?_, by simp⟩
        · simp only [recvLoopAux]
          rw [if_neg h0, if_pos hB]
          simp only [hrb2]
        · simp only [List.length_singleton, IO_SIZE] at *
          omega
      · push_neg at hB
        have hlen : IO_SIZE ≤ s.length := le_trans hB hN
        obtain ⟨ws, hrec, hcount, hjoin⟩ :=
          ih (N - IO_SIZE) (s.drop IO_SIZE)
            (by simp only [IO_SIZE] at *; omega)
            (by rw [List.length_drop]; omega)
        have hdd : (s.drop IO_SIZE).drop (N - IO_SIZE) = s.drop N := by
          rw [List.drop_drop]
          have hEq : IO_SIZE + (N - IO_SIZE) = N := by
            simp only [IO_SIZE] at *
            omega
          rw [hEq]
        rw [hdd] at hrec
        have hrb : readBytes IO_SIZE s
            = some (s.take IO_SIZE, s.drop IO_SIZE) := by
          simp [readBytes, hlen]
        refine ⟨s.take IO_SIZE :: ws, ?_, ?_, ?_⟩
        · simp only [recvLoopAux]
          rw [if_neg h0, if_neg (by omega : ¬ N < IO_SIZE)]
          simp only [hrb, hrec]
        · simp only [List.length_cons, hcount, IO_SIZE] at *
          omega
        · have hN2 : N = IO_SIZE + (N - IO_SIZE) := by omega
          rw [List.flatten_cons, hjoin, ← List.take_add, ← hN2]

theorem recvLoop_spec (N : Nat) (s : List Nat) (hN : N ≤ s.length) :
    ∃ ws : List (List Nat),
      recvLoop N s = some (ws, s.drop N) ∧
      ws.length = (N + (IO_SIZE - 1)) / IO_SIZE ∧
      ws.flatten = s.take N :=
  recvLoopAux_spec N N s le_rfl hN

/-! ## Claim theorems -/

/-- C1: in the `DumpGame` branch, after the 8-byte big-endian total length
`N = beVal len8` is read, the receiver performs exactly `⌈N / 32768⌉` block
reads (`ws.length`; 0 when `N = 0`), writes exactly the `N` payload bytes to
the sink in stream order (`ws.flatten = data`), and never reads past the
declared length (the remainder `tail` is untouched). -/
theorem single_length_stream (len8 data tail : List Nat)
    (h8 : len8.length = 8) (hd : data.length = beVal len8) :
    ∃ ws : List (List Nat),
      gameArm (some CommandAnswers.Game) (len8 ++ (data ++ tail))
        = ⟨true, ws, [], Outcome.normal, tail⟩ ∧
      ws.length = (beVal len8 + (IO_SIZE - 1)) / IO_SIZE ∧
      ws.flatten = data := by
  have h64 : read_be_to_u64 (len8 ++ (data ++ tail))
      = some (beVal len8, data ++ tail) :=
    read_be_to_u64_prefix len8 (data ++ tail) h8
  obtain ⟨ws, h1, h2, h3⟩ := recvLoop_spec (beVal len8) (data ++ tail)
    (by rw [List.length_append]; omega)
  have hdrop : (data ++ tail).drop (beVal len8) = tail := by
    rw [← hd]
    exact List.drop_left data tail
  have htake : (data ++ tail).take (beVal len8) = data := by
    rw [← hd]
    exact List.take_left data tail
  rw [hdrop] at h1
  rw [htake] at h3
  refine ⟨ws, ?_, h2, h3⟩
  simp only [gameArm, h64, h1]

/-- Witness for C1 at a declared length of 5 with one trailing byte. -/
theorem single_length_stream_witness :
    ∃ ws : List (List Nat),
      gameArm (some CommandAnswers.Game)
          (([0, 0, 0, 0, 0, 0, 0, 5] : List Nat) ++ ([1, 2, 3, 4, 5] ++ [9]))
        = ⟨true, ws, [], Outcome.normal, [9]⟩ ∧
      ws.length = (beVal [0, 0, 0, 0, 0, 0, 0, 5] + (IO_SIZE - 1)) / IO_SIZE ∧
      ws.flatten = [1, 2, 3, 4, 5] :=
  single_length_stream [0, 0, 0, 0, 0, 0, 0, 5] [1, 2, 3, 4, 5] [9]
    (by decide) (by decide)

/-- C2 (modelled from the spec; the chunked revision is not in `src/`):
every chunk's fresh response frame is validated before its bytes are
consumed (an invalid frame aborts with no bytes of that chunk written,
keeping earlier chunks), the loop continues on a chunk whose remaining-total
exceeds its own length, terminates exactly on a chunk whose remaining-total
equals its own length, and on the chunk sequence (100,40), (60,40), (20,20)
exactly 3 chunks are consumed and the loop halts, leaving later frames
unread. -/
theorem chunked_stream_spec :
    (∀ (c : ChunkFrame) (fs : List ChunkFrame), validChunkHeader c = false →
      chunkedRecv (c :: fs) = ([], false, c :: fs)) ∧
    (∀ (c : ChunkFrame) (fs : List ChunkFrame), validChunkHeader c = true →
      c.remaining = c.chunkLen →
      chunkedRecv (c :: fs) = ([c.bytes], true, fs)) ∧
    (∀ (c : ChunkFrame) (fs : List ChunkFrame), validChunkHeader c = true →
      c.remaining ≠ c.chunkLen →
      chunkedRecv (c :: fs)
        = (c.bytes :: (chunkedRecv fs).1,
           (chunkedRecv fs).2.1, (chunkedRecv fs).2.2)) ∧
    (∀ (b1 b2 b3 : List Nat) (fs : List ChunkFrame),
      chunkedRecv
          (⟨magicBytes, beBytes4 PROTOCOL_VERSION, 3, 100, 40, b1⟩ ::
           ⟨magicBytes, beBytes4 PROTOCOL_VERSION, 3, 60, 40, b2⟩ ::
           ⟨magicBytes, beBytes4 PROTOCOL_VERSION, 3, 20, 20, b3⟩ :: fs)
        = ([b1, b2, b3], true, fs)) := by
  refine ⟨?_, ?_, ?_, ?_⟩
  · intro c fs h
    simp [chunkedRecv, h]
  · intro c fs h h2
    simp [chunkedRecv, h, h2]
  · intro c fs h h2
    simp [chunkedRecv, h, h2]
  · intro b1 b2 b3 fs
    have hv1 : validChunkHeader
        ⟨magicBytes, beBytes4 PROTOCOL_VERSION, 3, 100, 40, b1⟩ = true := by
      rfl
    have hv2 : validChunkHeader
        ⟨magicBytes, beBytes4 PROTOCOL_VERSION, 3, 60, 40, b2⟩ = true := by
      rfl
    have hv3 : validChunkHeader
        ⟨magicBytes, beBytes4 PROTOCOL_VERSION, 3, 20, 20, b3⟩ = true := by
      rfl
    simp [chunkedRecv, hv1, hv2, hv3]

/-- Witness for C2's hypothesis-bearing parts: an invalid first frame
aborts before consuming it, and a frame with remaining = length ends the
transfer after exactly that chunk. -/
theorem chunked_stream_spec_witness :
    chunkedRecv [⟨[], [], 0, 100, 40, [5]⟩]
      = ([], false, [⟨[], [], 0, 100, 40, [5]⟩]) ∧
    chunkedRecv [⟨magicBytes, beBytes4 PROTOCOL_VERSION, 3, 20, 20, [7]⟩]
      = ([[7]], true, []) ∧
    chunkedRecv
        (⟨magicBytes, beBytes4 PROTOCOL_VERSION, 3, 100, 40, [1]⟩ ::
         [⟨magicBytes, beBytes4 PROTOCOL_VERSION, 3, 60, 60, [2]⟩])
      = ([1] :: (chunkedRecv [⟨magicBytes, beBytes4 PROTOCOL_VERSION, 3, 60, 60, [2]⟩]).1,
         (chunkedRecv [⟨magicBytes, beBytes4 PROTOCOL_VERSION, 3, 60, 60, [2]⟩]).2.1,
         (chunkedRecv [⟨magicBytes, beBytes4 PROTOCOL_VERSION, 3, 60, 60, [2]⟩]).2.2) :=
  ⟨chunked_stream_spec.1 _ _ (by decide),
   chunked_stream_spec.2.1 _ _ (by decide) (by decide),
   chunked_stream_spec.2.2.1 _ _ (by decide) (by decide)⟩

/-- C3 counterexample: during teardown, a response whose magic bytes are
wrong (here fifteen 0x00 bytes) is not reported as a warning — the
`unwrap` in `send_disconnect!` panics and aborts the process, so the claim
"any teardown failure is a warning only and never aborts" is false. -/
theorem teardown_fatal_cex :
    send_disconnect (List.replicate 15 0)
      = ⟨[], Outcome.fatal PanicKind.unwrapFailed, []⟩ := by
  decide

/-- C3 amended: once the teardown reply's magic and version validate and a
4-byte status is read, the exchange never aborts — any non-OK or
unrecognized status is reported as a warning only; but a magic/version
mismatch or a missing status (see the counterexample) panics via `unwrap`. -/
theorem teardown_warns_after_readable_status (s r : List Nat) (c : Nat)
    (r2 : List Nat) (h1 : check_header s = some r)
    (h2 : read_be_to_u32 r = some (c, r2)) :
    (send_disconnect s).outcome = Outcome.normal ∧
    (CommandAnswers.from_u32 c ≠ some CommandAnswers.OK →
      (send_disconnect s).msgs = [Msg.weirdDisconnect]) := by
  simp only [send_disconnect, h1, h2]
  rcases hc : CommandAnswers.from_u32 c with _ | ca
  · simp [hc]
  · cases ca <;> simp [hc]

/-- Witness for C3's amended theorem at a ProtocolError teardown reply. -/
theorem teardown_warns_witness :
    (send_disconnect
        (magicBytes ++ beBytes4 PROTOCOL_VERSION ++ [255, 255, 255, 255])).outcome
      = Outcome.normal ∧
    (CommandAnswers.from_u32 4294967295 ≠ some CommandAnswers.OK →
      (send_disconnect
          (magicBytes ++ beBytes4 PROTOCOL_VERSION ++ [255, 255, 255, 255])).msgs
        = [Msg.weirdDisconnect]) :=
  teardown_warns_after_readable_status _ [255, 255, 255, 255] 4294967295 []
    (by decide) (by decide)

/-- C6: requesting the combined `Full` dump hits `unimplemented!()`: the run
ends with an explicit not-implemented panic, with no frame sent, no sink
opened and nothing written — never a silent normal no-op. -/
theorem full_dump_unsupported : ∀ s : List Nat,
    runProc Proc.full s
      = ⟨[], false, [], [], Outcome.fatal PanicKind.notImplemented, s⟩ ∧
    (runProc Proc.full s).outcome ≠ Outcome.normal :=
  fun s => ⟨rfl, by simp [runProc]⟩

/-- C9: the version check of `check_magic_number_protocol_version!`, which
compares the stream against `transmute::<u32, [u8; 4]>(PROTOCOL_VERSION.to_be())`,
compares against exactly the direct big-endian encoding of the protocol
version (the bytes `[0, 0, 0, 1]`) on a host of either endianness, so the
transmute-based check and the direct big-endian check accept and reject
exactly the same inputs. -/
theorem version_check_equiv :
    (∀ e : Endianness, transmutedVersion e = beBytes4 PROTOCOL_VERSION) ∧
    beBytes4 PROTOCOL_VERSION = [0, 0, 0, 1] ∧
    (∀ (e : Endianness) (s : List Nat),
      check_magic_number (transmutedVersion e) s
        = check_magic_number (beBytes4 PROTOCOL_VERSION) s) :=
  ⟨transmutedVersion_eq, by decide,
   fun e s => by rw [transmutedVersion_eq]⟩

/-- C7: `DiscTypes::from_u8` maps 0x00 to `GC`, 0x01 to `WiiSingleSided`,
0x02 to `WiiDoubleSided` and every other byte (e.g. 0x03) to `none`
— and in the `Info` branch an out-of-range type byte makes the
`DiscTypes::from_u8(..).unwrap()` panic (a decode failure), never a silent
default disc type. -/
theorem disc_type_decode :
    DiscTypes.from_u8 0 = some DiscTypes.GC ∧
    DiscTypes.from_u8 1 = some DiscTypes.WiiSingleSided ∧
    DiscTypes.from_u8 2 = some DiscTypes.WiiDoubleSided ∧
    DiscTypes.from_u8 3 = none ∧
    (∀ b : Nat, 3 ≤ b → DiscTypes.from_u8 b = none) ∧
    (∀ (j : Bool) (b : Nat) (tail : List Nat), 3 ≤ b →
      (infoArm j (some CommandAnswers.DiscInfo)
          (b :: (List.replicate 32 0 ++ (List.replicate 512 0 ++ tail)))).outcome
        = Outcome.fatal PanicKind.unwrapFailed) := by
  refine ⟨by decide, by decide, by decide, by decide, from_u8_none_of_ge3, ?_⟩
  intro j b tail hb
  have h32 : readBytes 32 (List.replicate 32 0 ++ (List.replicate 512 0 ++ tail))
      = some (List.replicate 32 0, List.replicate 512 0 ++ tail) :=
    readBytes_eq_of_prefix _ _ _ (List.length_replicate 32 0)
  have h512 : readBytes 512 (List.replicate 512 0 ++ tail)
      = some (List.replicate 512 0, tail) :=
    readBytes_eq_of_prefix _ _ _ (List.length_replicate 512 0)
  have hdn32 : decodeName (List.replicate 32 0)
      = some (dropTrailingZeros (List.replicate 32 0)) := by
    unfold decodeName
    rw [if_pos (utf8Valid_replicate_zero 32)]
  have hdn512 : decodeName (List.replicate 512 0)
      = some (dropTrailingZeros (List.replicate 512 0)) := by
    unfold decodeName
    rw [if_pos (utf8Valid_replicate_zero 512)]
  simp only [infoArm, read_to_u8, h32, hdn32, h512, hdn512,
    from_u8_none_of_ge3 b hb]

/-- Witness for C7's hypothesis-bearing parts, at byte 0x03. -/
theorem disc_type_decode_witness :
    DiscTypes.from_u8 3 = none ∧
    (infoArm false (some CommandAnswers.DiscInfo)
        (3 :: (List.replicate 32 0 ++ (List.replicate 512 0 ++ [])))).outcome
      = Outcome.fatal PanicKind.unwrapFailed :=
  ⟨disc_type_decode.2.2.2.2.1 3 (by decide),
   disc_type_decode.2.2.2.2.2 false 3 [] (by decide)⟩

/-- C5: `CommandAnswers::from_u32` is total — exactly the eight declared
discriminants decode to a variant and every other `u32` yields `none` (no
decode error or crash) — and every branch's wildcard arm handles a `none`
status by reporting a weird response and consuming no payload bytes
(`rest` is the untouched stream). -/
theorem status_decode_total :
    (∀ c : Nat, CommandAnswers.from_u32 c = none ↔
      (c ≠ 4294967295 ∧ c ≠ 4294967294 ∧ c ≠ 4294967293 ∧ c ≠ 4294967292 ∧
       c ≠ 0 ∧ c ≠ 1 ∧ c ≠ 2 ∧ c ≠ 3)) ∧
    (∀ (j : Bool) (s : List Nat),
      infoArm j none s = ⟨false, [], [Msg.weirdResponse], Outcome.normal, s⟩) ∧
    (∀ s : List Nat,
      bcaArm none s = ⟨false, [], [Msg.weirdResponse], Outcome.normal, s⟩) ∧
    (∀ s : List Nat,
      gameArm none s = ⟨false, [], [Msg.weirdResponse], Outcome.normal, s⟩) ∧
    (∀ s : List Nat,
      ejectArm none s = ⟨false, [], [Msg.weirdResponse], Outcome.normal, s⟩) := by
  refine ⟨?_, fun j s => rfl, fun s => rfl, fun s => rfl, fun s => rfl⟩
  intro c
  simp only [CommandAnswers.from_u32]
  split_ifs <;> simp_all

theorem simpleBranch_sent (c : Commands) (s : List Nat) :
    (simpleBranch c s).sent = [commandFrame c] := by
  unfold simpleBranch
  cases hrs : readHeaderStatus s with
  | none => rfl
  | some p =>
    obtain ⟨a, r⟩ := p
    rcases a with _ | ca
    · rfl
    · cases ca <;> rfl

theorem withDisconnect_sent_normal (cf : List Nat) (arm : ArmOut)
    (h : arm.outcome = Outcome.normal) :
    (withDisconnect cf arm).sent = [cf, disconnectFrame] := by
  unfold withDisconnect
  rw [h]

/-- C4: whenever one of the four non-terminating operations (GetDiscInfo,
DumpBCA, DumpGame, EjectDisc) has its response handled without a panic,
exactly one Disconnect frame is sent afterwards; the ExitRemoteProgram and
Shutdown branches never send a Disconnect frame, on any input. -/
theorem disconnect_exactly_once :
    (∀ s : List Nat,
      (runProc Proc.exitProgram s).sent.count disconnectFrame = 0) ∧
    (∀ s : List Nat,
      (runProc Proc.shutdown s).sent.count disconnectFrame = 0) ∧
    (∀ (j : Bool) (s r : List Nat) (a : Option CommandAnswers),
      readHeaderStatus s = some (a, r) →
      (infoArm j a r).outcome = Outcome.normal →
      (runProc (Proc.info j) s).sent.count disconnectFrame = 1) ∧
    (∀ (s r : List Nat) (a : Option CommandAnswers),
      readHeaderStatus s = some (a, r) →
      (bcaArm a r).outcome = Outcome.normal →
      (runProc Proc.bca s).sent.count disconnectFrame = 1) ∧
    (∀ (s r : List Nat) (a : Option CommandAnswers),
      readHeaderStatus s = some (a, r) →
      (gameArm a r).outcome = Outcome.normal →
      (runProc Proc.game s).sent.count disconnectFrame = 1) ∧
    (∀ (s r : List Nat) (a : Option CommandAnswers),
      readHeaderStatus s = some (a, r) →
      (ejectArm a r).outcome = Outcome.normal →
      (runProc Proc.ejectDisc s).sent.count disconnectFrame = 1) := by
  refine ⟨?_, ?_, ?_, ?_, ?_, ?_⟩
  · intro s
    rw [show runProc Proc.exitProgram s = simpleBranch .ExitProgram s from rfl,
      simpleBranch_sent]
    decide
  · intro s
    rw [show runProc Proc.shutdown s = simpleBranch .Shutdown s from rfl,
      simpleBranch_sent]
    decide
  · intro j s r a h1 h2
    simp only [runProc, h1, withDisconnect_sent_normal _ _ h2]
    decide
  · intro s r a h1 h2
    simp only [runProc, h1, withDisconnect_sent_normal _ _ h2]
    decide
  · intro s r a h1 h2
    simp only [runProc, h1, withDisconnect_sent_normal _ _ h2]
    decide
  · intro s r a h1 h2
    simp only [runProc, h1, withDisconnect_sent_normal _ _ h2]
    decide

/-- Witness for C4: an EjectDisc run with an OK reply and an OK teardown
reply sends exactly one Disconnect frame. -/
theorem disconnect_exactly_once_witness :
    (runProc Proc.ejectDisc
        (magicBytes ++ beBytes4 PROTOCOL_VERSION ++ [0, 0, 0, 0] ++
         (magicBytes ++ beBytes4 PROTOCOL_VERSION ++ [0, 0, 0, 0]))).sent.count
      disconnectFrame = 1 :=
  disconnect_exactly_once.2.2.2.2.2 _
    (magicBytes ++ beBytes4 PROTOCOL_VERSION ++ [0, 0, 0, 0])
    (some CommandAnswers.OK) (by decide) (by decide)

/-- C8 counterexample: for a GetDiscInfo run answered with NoDisc (and a
clean teardown), the client reports no disc, attempts the Disconnect, and
the run ends normally — the process exit status is 0, not the nonzero
status the claim requires. -/
theorem nodisc_exit_zero_cex :
    runProc (Proc.info false)
        (magicBytes ++ beBytes4 PROTOCOL_VERSION ++ [255, 255, 255, 254] ++
         (magicBytes ++ beBytes4 PROTOCOL_VERSION ++ [0, 0, 0, 0]))
      = ⟨[commandFrame Commands.GetDiscInfo, disconnectFrame], false, [],
         [Msg.noDisc], Outcome.normal, []⟩ ∧
    exitCode (runProc (Proc.info false)
        (magicBytes ++ beBytes4 PROTOCOL_VERSION ++ [255, 255, 255, 254] ++
         (magicBytes ++ beBytes4 PROTOCOL_VERSION ++ [0, 0, 0, 0]))).outcome
      = 0 := by
  constructor
  · decide
  · decide

/-- C8 amended: on a NoDisc reply to GetDiscInfo the client reports the
missing disc and still attempts the full Disconnect exchange, but the
domain failure is not reflected in the exit status: when the teardown
exchange succeeds, the process exits 0. -/
theorem nodisc_reported_disconnect_attempted (j : Bool) (tail : List Nat) :
    runProc (Proc.info j)
        (magicBytes ++ beBytes4 PROTOCOL_VERSION ++ ([255, 255, 255, 254] ++ tail))
      = ⟨[commandFrame Commands.GetDiscInfo, disconnectFrame], false, [],
         Msg.noDisc :: (send_disconnect tail).msgs,
         (send_disconnect tail).outcome, (send_disconnect tail).rest⟩ ∧
    ((send_disconnect tail).outcome = Outcome.normal →
      exitCode (runProc (Proc.info j)
          (magicBytes ++ beBytes4 PROTOCOL_VERSION ++
            ([255, 255, 255, 254] ++ tail))).outcome = 0) := by
  have hst : CommandAnswers.from_u32 (beVal [255, 255, 255, 254])
      = some CommandAnswers.NoDisc := by decide
  have h1 : readHeaderStatus
      (magicBytes ++ beBytes4 PROTOCOL_VERSION ++ ([255, 255, 255, 254] ++ tail))
      = some (some CommandAnswers.NoDisc, tail) := by
    simp only [readHeaderStatus, check_header_prefix,
      read_be_to_u32_prefix [255, 255, 255, 254] tail (by decide), hst]
  have heq : runProc (Proc.info j)
      (magicBytes ++ beBytes4 PROTOCOL_VERSION ++ ([255, 255, 255, 254] ++ tail))
      = ⟨[commandFrame Commands.GetDiscInfo, disconnectFrame], false, [],
         Msg.noDisc :: (send_disconnect tail).msgs,
         (send_disconnect tail).outcome, (send_disconnect tail).rest⟩ := by
    simp only [runProc, h1]
    rfl
  refine ⟨heq, fun hok => ?_⟩
  rw [heq]
  simp only [hok]
  rfl

/-- Witness for C8's amended theorem with an OK teardown reply. -/
theorem nodisc_reported_witness :
    exitCode (runProc (Proc.info false)
        (magicBytes ++ beBytes4 PROTOCOL_VERSION ++
          ([255, 255, 255, 254] ++
            (magicBytes ++ beBytes4 PROTOCOL_VERSION ++ [0, 0, 0, 0])))).outcome
      = 0 :=
  (nodisc_reported_disconnect_attempted false
    (magicBytes ++ beBytes4 PROTOCOL_VERSION ++ [0, 0, 0, 0])).2 (by decide)

/-- C10: in the DumpBCA and DumpGame branches the output sink is opened
only in the arm for the matching success status; on every other decoded
status (ProtocolError, NoDisc, UnknownDiscType, OK, a cross success code,
or an unrecognized code) no sink is opened and nothing is written, so a
failed dump leaves the filesystem unchanged. -/
theorem sink_only_on_success :
    (∀ (a : Option CommandAnswers) (s : List Nat),
      a ≠ some CommandAnswers.BCA →
      (bcaArm a s).sinkOpened = false ∧ (bcaArm a s).sinkWrites = []) ∧
    (∀ (a : Option CommandAnswers) (s : List Nat),
      a ≠ some CommandAnswers.Game →
      (gameArm a s).sinkOpened = false ∧ (gameArm a s).sinkWrites = []) ∧
    (∀ s : List Nat, (bcaArm (some CommandAnswers.BCA) s).sinkOpened = true) ∧
    (∀ s : List Nat, (gameArm (some CommandAnswers.Game) s).sinkOpened = true) := by
  refine ⟨?_, ?_, ?_, ?_⟩
  · intro a s ha
    rcases a with _ | ca
    · exact ⟨rfl, rfl⟩
    · cases ca <;> simp_all [bcaArm]
  · intro a s ha
    rcases a with _ | ca
    · exact ⟨rfl, rfl⟩
    · cases ca <;> simp_all [gameArm]
  · intro s
    rcases hrb : readBytes 64 s with _ | ⟨d, r⟩
    · simp [bcaArm, hrb]
    · simp [bcaArm, hrb]
  · intro s
    rcases h64 : read_be_to_u64 s with _ | ⟨n, r⟩
    · simp [gameArm, h64]
    · rcases hrl : recvLoop n r with _ | ⟨ws, r2⟩
      · simp [gameArm, h64, hrl]
      · simp [gameArm, h64, hrl]

/-- Witness for C10 at the NoDisc status. -/
theorem sink_only_on_success_witness :
    ((bcaArm (some CommandAnswers.NoDisc) []).sinkOpened = false ∧
      (bcaArm (some CommandAnswers.NoDisc) []).sinkWrites = []) ∧
    ((gameArm (some CommandAnswers.NoDisc) []).sinkOpened = false ∧
      (gameArm (some CommandAnswers.NoDisc) []).sinkWrites = []) :=
  ⟨sink_only_on_success.1 (some CommandAnswers.NoDisc) [] (by decide),
   sink_only_on_success.2.1 (some CommandAnswers.NoDisc) [] (by decide)⟩

end NetDump
